import Mathlib

/-!
A shallow embedding of the evaluation-cache and component-view layer of
`include/deal.II/fe/fe_values.h` (classes `FEValuesBase` and the view classes
in namespace `FEValuesViews`), together with theorems settling the frozen
claims about it.

Modelling conventions:
* machine scalars (`double`) are modelled by `ℚ`;
* `Tensor<1,dim>` / `Tensor<2,dim>` / `Tensor<3,dim>` are modelled by
  `ℕ`-indexed total functions whose entries at indices `≥ dim` are `0`
  (a default-constructed tensor is the all-zero function);
* a `(Dcl)Assert` that fires in a debug build is modelled by an error result:
  each accessor returns `Res α`, which is `ok` when every assertion along the
  executed path holds and `error e` for the first violated assertion;
* the tables held in `FEValuesBase` (`finite_element_output.shape_values`,
  `shape_gradients`, `shape_hessians`, `shape_function_to_row_table`) and the
  queries forwarded to the `FiniteElement` collaborator
  (`n_dofs_per_cell()`, `n_components()`, `is_primitive()`,
  `get_nonzero_components()`, `system_to_component_index()`) are fields of one
  state record `FEState`; the update flags and the present-cell marker are
  booleans in the same record.
-/

/-- Rank-1 tensor (`Tensor<1,spacedim>`), `ℕ`-indexed with zero beyond `dim`. -/
abbrev Ten1 : Type := ℕ → ℚ

/-- Rank-2 tensor (`Tensor<2,spacedim>`), row-major. -/
abbrev Ten2 : Type := ℕ → ℕ → ℚ

/-- Rank-3 tensor (`Tensor<3,spacedim>`). -/
abbrev Ten3 : Type := ℕ → ℕ → ℕ → ℚ

/-- The zero (default-constructed) rank-1 tensor. -/
def ten1Zero : Ten1 := fun _ => 0

/-- The zero (default-constructed) rank-2 tensor. -/
def ten2Zero : Ten2 := fun _ _ => 0

/-- The zero (default-constructed) rank-3 tensor. -/
def ten3Zero : Ten3 := fun _ _ _ => 0

/-- Assignment `t[d] = v` on a rank-1 tensor. -/
def ten1Set (t : Ten1) (d : ℕ) (v : ℚ) : Ten1 :=
  fun k => if k = d then v else t k

/-- Compound assignment `t[d] += v` on a rank-1 tensor. -/
def ten1Add (t : Ten1) (d : ℕ) (v : ℚ) : Ten1 :=
  fun k => if k = d then t k + v else t k

/-- Assignment `t[d] = r` of a whole row of a rank-2 tensor. -/
def ten2SetRow (t : Ten2) (d : ℕ) (r : Ten1) : Ten2 :=
  fun a b => if a = d then r b else t a b

/-- Assignment `t[a][b] = r` of a rank-1 slice of a rank-3 tensor. -/
def ten3Set (t : Ten3) (a b : ℕ) (r : Ten1) : Ten3 :=
  fun x y z => if x = a ∧ y = b then r z else t x y z

/-- The exceptions raised by the assertions appearing in the embedded
functions (`AssertIndexRange`, `ExcAccessToUninitializedField`,
`ExcNotReinited`, `ExcShapeFunctionNotPrimitive`, `ExcNotImplemented`,
`ExcInternalError`, `ExcMessage`). -/
inductive Err : Type where
  | indexRange : Err
  | accessToUninitializedField : String → Err
  | notReinited : Err
  | shapeFunctionNotPrimitive : Err
  | notImplemented : Err
  | internalError : Err
  | message : String → Err
deriving DecidableEq

/-- Result of running an accessor in a debug build: either the returned value
or the first assertion that fired. -/
inductive Res (α : Type) : Type where
  | ok : α → Res α
  | error : Err → Res α
deriving DecidableEq

/-- Map a function over the payload of a result. -/
def Res.map {α β : Type} (f : α → β) : Res α → Res β
  | .ok a => .ok (f a)
  | .error e => .error e

/-- The state visible to the embedded accessors of one `FEValuesBase` object:
element metadata, resolved update flags, the present-cell marker, and the
basis-cache tables filled by `reinit`. -/
structure FEState : Type where
  n_dofs_per_cell : ℕ
  n_components : ℕ
  update_values : Bool
  update_gradients : Bool
  update_hessians : Bool
  present_cell_initialized : Bool
  fe_is_primitive : Bool
  is_primitive : ℕ → Bool
  nonzero_components : ℕ → ℕ → Bool
  system_to_component_index_first : ℕ → ℕ
  shape_function_to_row_table : ℕ → ℕ
  shape_values : ℕ → ℕ → ℚ
  shape_gradients : ℕ → ℕ → Ten1
  shape_hessians : ℕ → ℕ → Ten2

/-- `FEValuesViews::Scalar::ShapeFunctionData`: per shape function, whether
the selected component is structurally nonzero and, if so, the basis-cache
row holding it. -/
structure ScalarSFD : Type where
  is_nonzero_shape_function_component : Bool
  row_index : ℕ
deriving DecidableEq

/-- Per-shape-function descriptor shared by the `Vector`,
`SymmetricTensor<2>` and `Tensor<2>` views (the source declares one
structurally identical `ShapeFunctionData` struct in each class): the
per-component nonzero markers and row indices, and the tri-state
`single_nonzero_component` (a row index if exactly one component is
structurally nonzero, `-1` for multiple, `-2` for none) together with the
component index the single row corresponds to. -/
structure BlockSFD : Type where
  is_nonzero_shape_function_component : ℕ → Bool
  row_index : ℕ → ℕ
  single_nonzero_component : ℤ
  single_nonzero_component_index : ℕ

/-- `FEValuesBase::shape_value(i,j)`. -/
def shape_value (st : FEState) (i j : ℕ) : Res ℚ :=
  if i < st.n_dofs_per_cell then
    if st.update_values then
      if st.is_primitive i then
        if st.present_cell_initialized then
          .ok (if st.fe_is_primitive then st.shape_values i j
               else st.shape_values
                 (st.shape_function_to_row_table
                   (i * st.n_components + st.system_to_component_index_first i)) j)
        else .error .notReinited
      else .error .shapeFunctionNotPrimitive
    else .error (.accessToUninitializedField "update_values")
  else .error .indexRange

/-- The payload computed by `FEValuesBase::shape_value_component(i,j,component)`
once all its assertions have passed. -/
def shape_value_component_payload (st : FEState) (i j component : ℕ) : ℚ :=
  if st.nonzero_components i component = false then 0
  else st.shape_values
    (st.shape_function_to_row_table (i * st.n_components + component)) j

/-- `FEValuesBase::shape_value_component(i,j,component)`. -/
def shape_value_component (st : FEState) (i j component : ℕ) : Res ℚ :=
  if i < st.n_dofs_per_cell then
    if st.update_values then
      if component < st.n_components then
        if st.present_cell_initialized then
          .ok (shape_value_component_payload st i j component)
        else .error .notReinited
      else .error .indexRange
    else .error (.accessToUninitializedField "update_values")
  else .error .indexRange

/-- `FEValuesBase::shape_hessian(i,j)`. -/
def shape_hessian (st : FEState) (i j : ℕ) : Res Ten2 :=
  if i < st.n_dofs_per_cell then
    if st.update_hessians then
      if st.is_primitive i then
        if st.present_cell_initialized then
          .ok (if st.fe_is_primitive then st.shape_hessians i j
               else st.shape_hessians
                 (st.shape_function_to_row_table
                   (i * st.n_components + st.system_to_component_index_first i)) j)
        else .error .notReinited
      else .error .shapeFunctionNotPrimitive
    else .error (.accessToUninitializedField "update_hessians")
  else .error .indexRange

/-- `FEValuesViews::Scalar::value(shape_function, q_point)`. -/
def Scalar_value (st : FEState) (sfd : ℕ → ScalarSFD) (shape_function q_point : ℕ) :
    Res ℚ :=
  if shape_function < st.n_dofs_per_cell then
    if st.update_values then
      .ok (if (sfd shape_function).is_nonzero_shape_function_component then
             st.shape_values (sfd shape_function).row_index q_point
           else 0)
    else .error (.accessToUninitializedField "update_values")
  else .error .indexRange

/-- `FEValuesViews::Scalar::gradient(shape_function, q_point)`. -/
def Scalar_gradient (st : FEState) (sfd : ℕ → ScalarSFD) (shape_function q_point : ℕ) :
    Res Ten1 :=
  if shape_function < st.n_dofs_per_cell then
    if st.update_gradients then
      .ok (if (sfd shape_function).is_nonzero_shape_function_component then
             st.shape_gradients (sfd shape_function).row_index q_point
           else ten1Zero)
    else .error (.accessToUninitializedField "update_gradients")
  else .error .indexRange

/-- `FEValuesViews::Scalar::hessian(shape_function, q_point)`. -/
def Scalar_hessian (st : FEState) (sfd : ℕ → ScalarSFD) (shape_function q_point : ℕ) :
    Res Ten2 :=
  if shape_function < st.n_dofs_per_cell then
    if st.update_hessians then
      .ok (if (sfd shape_function).is_nonzero_shape_function_component then
             st.shape_hessians (sfd shape_function).row_index q_point
           else ten2Zero)
    else .error (.accessToUninitializedField "update_hessians")
  else .error .indexRange

/-- The body shared by the `value` functions of the `Vector`,
`SymmetricTensor<2>` and `Tensor<2>` views once their assertions have passed
(identical in the source up to the loop bound `B`, which is `dim`,
`n_independent_components` and `dim*dim` respectively; for the tensor views
the returned tensor is represented by its vector of independent components in
unrolled order, so the source's write
`return_value[unrolled_to_component_indices(d)] = x` is the slot-`d` write):
if `single_nonzero_component` is the sentinel `-2` return the
default-constructed (zero) value, if it is a row (`≠ -1`) embed that row's
cached entry at the single component index, otherwise loop over the `B`
components and copy each structurally nonzero one from its row. -/
def valueDispatch (B : ℕ) (st : FEState) (d : BlockSFD) (q : ℕ) : Ten1 :=
  if d.single_nonzero_component = -2 then ten1Zero
  else if d.single_nonzero_component ≠ -1 then
    ten1Set ten1Zero d.single_nonzero_component_index
      (st.shape_values d.single_nonzero_component.toNat q)
  else
    (List.range B).foldl
      (fun acc c =>
        if d.is_nonzero_shape_function_component c then
          ten1Set acc c (st.shape_values (d.row_index c) q)
        else acc)
      ten1Zero

/-- `FEValuesViews::Vector::value(shape_function, q_point)`. -/
def Vector_value (dim : ℕ) (st : FEState) (sfd : ℕ → BlockSFD)
    (shape_function q_point : ℕ) : Res Ten1 :=
  if shape_function < st.n_dofs_per_cell then
    if st.update_values then
      .ok (valueDispatch dim st (sfd shape_function) q_point)
    else .error (.accessToUninitializedField "update_values")
  else .error .indexRange

/-- The loop of the multiple-nonzero-components branch of
`FEValuesViews::Vector::gradient` (also reused, before symmetrization, by
`Vector::symmetric_gradient`): assemble the rank-2 gradient row by row from
each structurally nonzero component's cached gradient row. -/
def gradientLoop (dim : ℕ) (st : FEState) (d : BlockSFD) (q : ℕ) : Ten2 :=
  (List.range dim).foldl
    (fun acc c =>
      if d.is_nonzero_shape_function_component c then
        ten2SetRow acc c (st.shape_gradients (d.row_index c) q)
      else acc)
    ten2Zero

/-- `FEValuesViews::Vector::gradient(shape_function, q_point)`. -/
def Vector_gradient (dim : ℕ) (st : FEState) (sfd : ℕ → BlockSFD)
    (shape_function q_point : ℕ) : Res Ten2 :=
  if shape_function < st.n_dofs_per_cell then
    if st.update_gradients then
      let d := sfd shape_function
      .ok (if d.single_nonzero_component = -2 then ten2Zero
           else if d.single_nonzero_component ≠ -1 then
             ten2SetRow ten2Zero d.single_nonzero_component_index
               (st.shape_gradients d.single_nonzero_component.toNat q_point)
           else gradientLoop dim st d q_point)
    else .error (.accessToUninitializedField "update_gradients")
  else .error .indexRange

/-- `FEValuesViews::Vector::divergence(shape_function, q_point)`. -/
def Vector_divergence (dim : ℕ) (st : FEState) (sfd : ℕ → BlockSFD)
    (shape_function q_point : ℕ) : Res ℚ :=
  if shape_function < st.n_dofs_per_cell then
    if st.update_gradients then
      let d := sfd shape_function
      if d.single_nonzero_component = -2 then .ok 0
      else if d.single_nonzero_component ≠ -1 then
        .ok (st.shape_gradients d.single_nonzero_component.toNat q_point
               d.single_nonzero_component_index)
      else
        .ok ((List.range dim).foldl
          (fun acc c =>
            if d.is_nonzero_shape_function_component c then
              acc + st.shape_gradients (d.row_index c) q_point c
            else acc)
          0)
    else .error (.accessToUninitializedField "update_gradients")
  else .error .indexRange

/-- A 3-entry rank-1 tensor from its three components. -/
def mk3 (a b c : ℚ) : Ten1 :=
  fun k => if k = 0 then a else if k = 1 then b else if k = 2 then c else 0

/-- `FEValuesViews::Vector::curl(shape_function, q_point)`; the result is a
1-component pseudoscalar for `dim = 2` and a 3-vector for `dim = 3`.
In 1d the function hits `Assert(false, ExcMessage("Computing the curl in 1d is
not a useful operation"))`; for any other dimension it falls through the
switch to `Assert(false, ExcInternalError())`. -/
def Vector_curl (dim : ℕ) (st : FEState) (sfd : ℕ → BlockSFD)
    (shape_function q_point : ℕ) : Res Ten1 :=
  if shape_function < st.n_dofs_per_cell then
    if st.update_gradients then
      let d := sfd shape_function
      if d.single_nonzero_component = -2 then .ok ten1Zero
      else
        if dim = 1 then
          .error (.message "Computing the curl in 1d is not a useful operation")
        else if dim = 2 then
          if d.single_nonzero_component ≠ -1 then
            .ok (ten1Set ten1Zero 0
              (if d.single_nonzero_component_index = 0 then
                 (-1 : ℚ) * st.shape_gradients d.single_nonzero_component.toNat q_point 1
               else
                 st.shape_gradients d.single_nonzero_component.toNat q_point 0))
          else
            let r0 : ℚ := 0
            let r1 := if d.is_nonzero_shape_function_component 0 then
                r0 - st.shape_gradients (d.row_index 0) q_point 1
              else r0
            let r2 := if d.is_nonzero_shape_function_component 1 then
                r1 + st.shape_gradients (d.row_index 1) q_point 0
              else r1
            .ok (ten1Set ten1Zero 0 r2)
        else if dim = 3 then
          if d.single_nonzero_component ≠ -1 then
            let g := st.shape_gradients d.single_nonzero_component.toNat q_point
            .ok (if d.single_nonzero_component_index = 0 then
                   mk3 0 (g 2) ((-1 : ℚ) * g 1)
                 else if d.single_nonzero_component_index = 1 then
                   mk3 ((-1 : ℚ) * g 2) 0 (g 0)
                 else
                   mk3 (g 1) ((-1 : ℚ) * g 0) 0)
          else
            let t0 := ten1Zero
            let t1 := if d.is_nonzero_shape_function_component 0 then
                ten1Add (ten1Add t0 1 (st.shape_gradients (d.row_index 0) q_point 2)) 2
                  (-(st.shape_gradients (d.row_index 0) q_point 1))
              else t0
            let t2 := if d.is_nonzero_shape_function_component 1 then
                ten1Add (ten1Add t1 0 (-(st.shape_gradients (d.row_index 1) q_point 2))) 2
                  (st.shape_gradients (d.row_index 1) q_point 0)
              else t1
            let t3 := if d.is_nonzero_shape_function_component 2 then
                ten1Add (ten1Add t2 0 (st.shape_gradients (d.row_index 2) q_point 1)) 1
                  (-(st.shape_gradients (d.row_index 2) q_point 0))
              else t2
            .ok t3
        else .error .internalError
    else .error (.accessToUninitializedField "update_gradients")
  else .error .indexRange

/-- `FEValuesViews::internal::symmetrize_single_row(n, t)`: the three
per-dimension overloads, written out entry by entry exactly as the source's
`SymmetricTensor` initializer lists (diagonal entries first, then the
off-diagonal pairs), represented here as the full symmetric matrix. For an
out-of-range `n` the source's `default:` branch asserts and returns the
default-constructed tensor; the returned value is the zero tensor. -/
def symmetrize_single_row (dim n : ℕ) (t : Ten1) : Ten2 :=
  match dim with
  | 1 => fun a b => if a = 0 ∧ b = 0 then t 0 else 0
  | 2 =>
    match n with
    | 0 => fun a b =>
        if a = 0 ∧ b = 0 then t 0
        else if (a = 0 ∧ b = 1) ∨ (a = 1 ∧ b = 0) then t 1 / 2
        else 0
    | 1 => fun a b =>
        if a = 1 ∧ b = 1 then t 1
        else if (a = 0 ∧ b = 1) ∨ (a = 1 ∧ b = 0) then t 0 / 2
        else 0
    | _ => ten2Zero
  | 3 =>
    match n with
    | 0 => fun a b =>
        if a = 0 ∧ b = 0 then t 0
        else if (a = 0 ∧ b = 1) ∨ (a = 1 ∧ b = 0) then t 1 / 2
        else if (a = 0 ∧ b = 2) ∨ (a = 2 ∧ b = 0) then t 2 / 2
        else 0
    | 1 => fun a b =>
        if a = 1 ∧ b = 1 then t 1
        else if (a = 0 ∧ b = 1) ∨ (a = 1 ∧ b = 0) then t 0 / 2
        else if (a = 1 ∧ b = 2) ∨ (a = 2 ∧ b = 1) then t 2 / 2
        else 0
    | 2 => fun a b =>
        if a = 2 ∧ b = 2 then t 2
        else if (a = 0 ∧ b = 2) ∨ (a = 2 ∧ b = 0) then t 0 / 2
        else if (a = 1 ∧ b = 2) ∨ (a = 2 ∧ b = 1) then t 1 / 2
        else 0
    | _ => ten2Zero
  | _ => ten2Zero

/-- Modelled from the spec: `dealii::symmetrize` on a `Tensor<2,dim>` lives in
`symmetric_tensor.h`, which is not among the reviewed sources; per §4.4,
`symmetric_gradient` is the "symmetrization of the same gradient data", i.e.
the symmetric part `(G + Gᵀ)/2`. -/
def symmetrizeT (G : Ten2) : Ten2 := fun a b => (G a b + G b a) / 2

/-- `FEValuesViews::Vector::symmetric_gradient(shape_function, q_point)`. -/
def Vector_symmetric_gradient (dim : ℕ) (st : FEState) (sfd : ℕ → BlockSFD)
    (shape_function q_point : ℕ) : Res Ten2 :=
  if shape_function < st.n_dofs_per_cell then
    if st.update_gradients then
      let d := sfd shape_function
      if d.single_nonzero_component = -2 then .ok ten2Zero
      else if d.single_nonzero_component ≠ -1 then
        .ok (symmetrize_single_row dim d.single_nonzero_component_index
          (st.shape_gradients d.single_nonzero_component.toNat q_point))
      else .ok (symmetrizeT (gradientLoop dim st d q_point))
    else .error (.accessToUninitializedField "update_gradients")
  else .error .indexRange

/-- `FEValuesViews::SymmetricTensor<2>::value(shape_function, q_point)`,
with the symmetric tensor represented by its independent components in
unrolled order; `B` is `value_type::n_independent_components`. -/
def SymmetricTensor_value (B : ℕ) (st : FEState) (sfd : ℕ → BlockSFD)
    (shape_function q_point : ℕ) : Res Ten1 :=
  if shape_function < st.n_dofs_per_cell then
    if st.update_values then
      .ok (valueDispatch B st (sfd shape_function) q_point)
    else .error (.accessToUninitializedField "update_values")
  else .error .indexRange

/-- `FEValuesViews::Tensor<2>::value(shape_function, q_point)`, with the
tensor represented by its components in unrolled order; the loop bound is
`dim * dim`. -/
def Tensor_value (dim : ℕ) (st : FEState) (sfd : ℕ → BlockSFD)
    (shape_function q_point : ℕ) : Res Ten1 :=
  if shape_function < st.n_dofs_per_cell then
    if st.update_values then
      .ok (valueDispatch (dim * dim) st (sfd shape_function) q_point)
    else .error (.accessToUninitializedField "update_values")
  else .error .indexRange

/-- `FEValuesViews::SymmetricTensor<2>::divergence(shape_function, q_point)`.
`unroll` stands for `value_type::unrolled_to_component_indices` (defined in
`symmetric_tensor.h`, outside the reviewed sources, hence a parameter).
In the multiple-nonzero-components state the source hits
`Assert(false, ExcNotImplemented())`. -/
def SymmetricTensor_divergence (unroll : ℕ → ℕ × ℕ) (st : FEState)
    (sfd : ℕ → BlockSFD) (shape_function q_point : ℕ) : Res Ten1 :=
  if shape_function < st.n_dofs_per_cell then
    if st.update_gradients then
      let d := sfd shape_function
      if d.single_nonzero_component = -2 then .ok ten1Zero
      else if d.single_nonzero_component ≠ -1 then
        let ii := (unroll d.single_nonzero_component_index).1
        let jj := (unroll d.single_nonzero_component_index).2
        let phi_grad := st.shape_gradients d.single_nonzero_component.toNat q_point
        let t1 := ten1Set ten1Zero ii (phi_grad jj)
        .ok (if ii ≠ jj then ten1Set t1 jj (phi_grad ii) else t1)
      else .error .notImplemented
    else .error (.accessToUninitializedField "update_gradients")
  else .error .indexRange

/-- `FEValuesViews::Tensor<2>::divergence(shape_function, q_point)`; `unroll`
stands for `Tensor<2,spacedim>::unrolled_to_component_indices` (outside the
reviewed sources). In the multiple-nonzero-components state the source hits
`Assert(false, ExcNotImplemented())`. -/
def Tensor_divergence (unroll : ℕ → ℕ × ℕ) (st : FEState)
    (sfd : ℕ → BlockSFD) (shape_function q_point : ℕ) : Res Ten1 :=
  if shape_function < st.n_dofs_per_cell then
    if st.update_gradients then
      let d := sfd shape_function
      if d.single_nonzero_component = -2 then .ok ten1Zero
      else if d.single_nonzero_component ≠ -1 then
        let ii := (unroll d.single_nonzero_component_index).1
        let jj := (unroll d.single_nonzero_component_index).2
        let phi_grad := st.shape_gradients d.single_nonzero_component.toNat q_point
        .ok (ten1Set ten1Zero ii (phi_grad jj))
      else .error .notImplemented
    else .error (.accessToUninitializedField "update_gradients")
  else .error .indexRange

/-- `FEValuesViews::Tensor<2>::gradient(shape_function, q_point)`; `unroll`
as in `Tensor_divergence`. In the multiple-nonzero-components state the
source hits `Assert(false, ExcNotImplemented())`. -/
def Tensor_gradient (unroll : ℕ → ℕ × ℕ) (st : FEState)
    (sfd : ℕ → BlockSFD) (shape_function q_point : ℕ) : Res Ten3 :=
  if shape_function < st.n_dofs_per_cell then
    if st.update_gradients then
      let d := sfd shape_function
      if d.single_nonzero_component = -2 then .ok ten3Zero
      else if d.single_nonzero_component ≠ -1 then
        let ii := (unroll d.single_nonzero_component_index).1
        let jj := (unroll d.single_nonzero_component_index).2
        let phi_grad := st.shape_gradients d.single_nonzero_component.toNat q_point
        .ok (ten3Set ten3Zero ii jj phi_grad)
      else .error .notImplemented
    else .error (.accessToUninitializedField "update_gradients")
  else .error .indexRange

/-! Spec-side definitions: clean restatements of the dispatch results, used as
the right-hand sides of the claim theorems, and the descriptor construction
modelled from the spec. -/

/-- The tri-state dispatch of the spec (§4.4) stated pointwise: the zero
vector for the "none" sentinel `-2`, the single cached row embedded at the
single component index when one row is named, and otherwise the elementwise
assembly over the `B`-sized `is_nonzero` array. -/
def blockValueSpec (B : ℕ) (st : FEState) (d : BlockSFD) (q : ℕ) : Ten1 :=
  if d.single_nonzero_component = -2 then ten1Zero
  else if d.single_nonzero_component = -1 then
    fun k =>
      if k < B ∧ d.is_nonzero_shape_function_component k then
        st.shape_values (d.row_index k) q
      else 0
  else
    fun k =>
      if k = d.single_nonzero_component_index then
        st.shape_values d.single_nonzero_component.toNat q
      else 0

/-- The trace of a rank-2 tensor over the first `dim` diagonal entries. -/
def traceT (dim : ℕ) (G : Ten2) : ℚ := ∑ d in Finset.range dim, G d d

/-- The antisymmetric-part curl formula of the spec: in 2d the single
pseudoscalar component `G 1 0 - G 0 1`, in 3d the standard 3-vector curl of
the gradient. -/
def curlOfGradient (dim : ℕ) (G : Ten2) : Ten1 :=
  fun k =>
    if dim = 2 then (if k = 0 then G 1 0 - G 0 1 else 0)
    else if dim = 3 then
      (if k = 0 then G 2 1 - G 1 2
       else if k = 1 then G 0 2 - G 2 0
       else if k = 2 then G 1 0 - G 0 1
       else 0)
    else 0

/-- The rank-2 tensor whose `n`-th row is `t` and whose other rows are zero. -/
def singleRowT (n : ℕ) (t : Ten1) : Ten2 := fun a b => if a = n then t b else 0

/-- The none/single/multiple dispatch of `SymmetricTensor<2>::divergence`
stated pointwise: zero for "none", for a single unrolled component the
entry `ii` set to `phi_grad jj` and (when `ii ≠ jj`) the entry `jj` set to
`phi_grad ii`, and a not-implemented assertion for "multiple". -/
def symTensorDivSpec (unroll : ℕ → ℕ × ℕ) (st : FEState) (d : BlockSFD)
    (q : ℕ) : Res Ten1 :=
  if d.single_nonzero_component = -2 then .ok ten1Zero
  else if d.single_nonzero_component = -1 then .error .notImplemented
  else
    let ii := (unroll d.single_nonzero_component_index).1
    let jj := (unroll d.single_nonzero_component_index).2
    let phi_grad := st.shape_gradients d.single_nonzero_component.toNat q
    .ok (fun k => if k = ii then phi_grad jj else if k = jj then phi_grad ii else 0)

/-- The none/single/multiple dispatch of `Tensor<2>::divergence` stated
pointwise. -/
def tensorDivSpec (unroll : ℕ → ℕ × ℕ) (st : FEState) (d : BlockSFD)
    (q : ℕ) : Res Ten1 :=
  if d.single_nonzero_component = -2 then .ok ten1Zero
  else if d.single_nonzero_component = -1 then .error .notImplemented
  else
    let ii := (unroll d.single_nonzero_component_index).1
    let jj := (unroll d.single_nonzero_component_index).2
    let phi_grad := st.shape_gradients d.single_nonzero_component.toNat q
    .ok (fun k => if k = ii then phi_grad jj else 0)

/-- The none/single/multiple dispatch of `Tensor<2>::gradient` stated
pointwise. -/
def tensorGradSpec (unroll : ℕ → ℕ × ℕ) (st : FEState) (d : BlockSFD)
    (q : ℕ) : Res Ten3 :=
  if d.single_nonzero_component = -2 then .ok ten3Zero
  else if d.single_nonzero_component = -1 then .error .notImplemented
  else
    let ii := (unroll d.single_nonzero_component_index).1
    let jj := (unroll d.single_nonzero_component_index).2
    let phi_grad := st.shape_gradients d.single_nonzero_component.toNat q
    .ok (fun x y z => if x = ii ∧ y = jj then phi_grad z else 0)

/-- Embedding of a view-block value into the element's full component space:
the block occupies components `first … first + B - 1`, everything outside is
the additive identity. -/
def embedBlock (first B : ℕ) (v : Ten1) : Ten1 :=
  fun c => if first ≤ c ∧ c < first + B then v (c - first) else 0

/-- Modelled from the spec: construction of the scalar view's
per-shape-function descriptor (§3 `ComponentViewDescriptor`, §4.4) — the view
constructors live in `fe_values.cc`, which is not among the reviewed sources.
The nonzero marker comes from the element's structural nonzero-component
metadata at the selected component, the row from the row table. -/
def mkScalarSFD (st : FEState) (i component : ℕ) : ScalarSFD :=
  ⟨st.nonzero_components i component,
   st.shape_function_to_row_table (i * st.n_components + component)⟩

/-- Modelled from the spec: construction of the block views'
per-shape-function descriptor (§3 `ComponentViewDescriptor`, §4.4) — the view
constructors live in `fe_values.cc`, which is not among the reviewed sources.
For each component `c` of the `B`-sized block starting at `first`,
`is_nonzero[c]` is the element's structural marker and `row_index[c]` the
basis-cache row from the row table; `single_nonzero_component` is that row if
exactly one block component is structurally nonzero, the sentinel `-2`
("none") if none is, and the sentinel `-1` ("multiple") otherwise. -/
def mkBlockSFD (st : FEState) (i first B : ℕ) : BlockSFD :=
  let nz : ℕ → Bool := fun c => st.nonzero_components i (first + c)
  let row : ℕ → ℕ := fun c =>
    st.shape_function_to_row_table (i * st.n_components + (first + c))
  let nzs := (List.range B).filter nz
  if nzs.length = 0 then ⟨nz, row, -2, 0⟩
  else if nzs.length = 1 then ⟨nz, row, (row (nzs.headD 0) : ℤ), nzs.headD 0⟩
  else ⟨nz, row, -1, 0⟩

/-- Modelled from the spec: `SymmetricTensor<2,dim>::n_independent_components`
(defined in `symmetric_tensor.h`, outside the reviewed sources) — the number
of independent components of a symmetric rank-2 tensor. -/
def symNIndep (dim : ℕ) : ℕ := dim * (dim + 1) / 2

/-! Concrete instances used by the witness and counterexample theorems. -/

/-- A concrete evaluator state with 4 shape functions and 6 components whose
flags and present-cell marker are the four arguments; the basis-cache tables
hold distinct rational entries, with tensor entries vanishing at indices
`≥ 3`. -/
def mkExState (uv ug uh pc : Bool) : FEState where
  n_dofs_per_cell := 4
  n_components := 6
  update_values := uv
  update_gradients := ug
  update_hessians := uh
  present_cell_initialized := pc
  fe_is_primitive := true
  is_primitive := fun _ => true
  nonzero_components := fun i c =>
    decide ((i = 0 ∧ c = 0) ∨ (i = 1 ∧ (c = 1 ∨ c = 2)) ∨ (i = 3 ∧ c = 3))
  system_to_component_index_first := fun _ => 0
  shape_function_to_row_table := fun k => k
  shape_values := fun r q => (r : ℚ) + 10 * (q : ℚ) + 1
  shape_gradients := fun r q k =>
    if k < 3 then (r : ℚ) + 5 * (q : ℚ) + 2 * (k : ℚ) + 1 else 0
  shape_hessians := fun r q a b =>
    if a < 3 ∧ b < 3 then (r : ℚ) + (q : ℚ) + 3 * (a : ℚ) + (b : ℚ) else 0

/-- A concrete family of vector-view descriptors: shape function 0 is in the
single-nonzero-component state (row 0, component 0), shape function 1 in the
multiple state with components 0 and 1 nonzero, every other one in the
"none" state. -/
def exSFD : ℕ → BlockSFD := fun i =>
  if i = 0 then ⟨fun c => decide (c = 0), fun c => c, 0, 0⟩
  else if i = 1 then ⟨fun c => decide (c = 0 ∨ c = 1), fun c => c + 1, -1, 0⟩
  else ⟨fun _ => false, fun _ => 0, -2, 0⟩

/-- A concrete scalar-view descriptor family: every shape function sees a
structurally nonzero component stored in row 0. -/
def exScalarSFD : ℕ → ScalarSFD := fun _ => ⟨true, 0⟩

/-- A concrete stand-in for the unrolled-index map of the 2d tensor views:
`0 ↦ (0,0)`, `1 ↦ (1,1)`, anything else `↦ (0,1)`. -/
def exUnroll : ℕ → ℕ × ℕ :=
  fun c => if c = 0 then (0, 0) else if c = 1 then (1, 1) else (0, 1)

/-! Helper lemmas about the assembly loops. -/

theorem foldSet_pointwise (nz : ℕ → Bool) (f : ℕ → ℚ) :
    ∀ (B : ℕ) (t : Ten1) (k : ℕ),
      ((List.range B).foldl
        (fun acc c => if nz c then ten1Set acc c (f c) else acc) t) k
      = if k < B ∧ nz k then f k else t k := by
  intro B
  induction B with
  | zero => intro t k; simp
  | succ n ih =>
    intro t k
    rw [List.range_succ, List.foldl_append, List.foldl_cons, List.foldl_nil]
    by_cases hnz : nz n
    · rw [if_pos hnz]
      by_cases hk : k = n
      · subst hk
        simp [ten1Set, hnz, Nat.lt_succ_self]
      · simp only [ten1Set, if_neg hk, ih]
        refine if_congr ?_ rfl rfl
        constructor
        · rintro ⟨h1, h2⟩; exact ⟨by omega, h2⟩
        · rintro ⟨h1, h2⟩; exact ⟨by omega, h2⟩
    · rw [if_neg hnz, ih]
      refine if_congr ?_ rfl rfl
      constructor
      · rintro ⟨h1, h2⟩; exact ⟨by omega, h2⟩
      · rintro ⟨h1, h2⟩
        refine ⟨?_, h2⟩
        rcases Nat.lt_succ_iff_lt_or_eq.mp h1 with h | h
        · exact h
        · exact absurd (h ▸ h2) hnz

theorem foldSetRow_pointwise (nz : ℕ → Bool) (g : ℕ → Ten1) :
    ∀ (B : ℕ) (t : Ten2) (a b : ℕ),
      ((List.range B).foldl
        (fun acc c => if nz c then ten2SetRow acc c (g c) else acc) t) a b
      = if a < B ∧ nz a then g a b else t a b := by
  intro B
  induction B with
  | zero => intro t a b; simp
  | succ n ih =>
    intro t a b
    rw [List.range_succ, List.foldl_append, List.foldl_cons, List.foldl_nil]
    by_cases hnz : nz n
    · rw [if_pos hnz]
      by_cases ha : a = n
      · subst ha
        simp [ten2SetRow, hnz, Nat.lt_succ_self]
      · simp only [ten2SetRow, if_neg ha, ih]
        refine if_congr ?_ rfl rfl
        constructor
        · rintro ⟨h1, h2⟩; exact ⟨by omega, h2⟩
        · rintro ⟨h1, h2⟩; exact ⟨by omega, h2⟩
    · rw [if_neg hnz, ih]
      refine if_congr ?_ rfl rfl
      constructor
      · rintro ⟨h1, h2⟩; exact ⟨by omega, h2⟩
      · rintro ⟨h1, h2⟩
        refine ⟨?_, h2⟩
        rcases Nat.lt_succ_iff_lt_or_eq.mp h1 with h | h
        · exact h
        · exact absurd (h ▸ h2) hnz

theorem foldSum_eq (nz : ℕ → Bool) (f : ℕ → ℚ) :
    ∀ (B : ℕ) (s : ℚ),
      ((List.range B).foldl (fun acc c => if nz c then acc + f c else acc) s)
      = s + ∑ c in Finset.range B, (if nz c then f c else 0) := by
  intro B
  induction B with
  | zero => intro s; simp
  | succ n ih =>
    intro s
    rw [List.range_succ, List.foldl_append, List.foldl_cons, List.foldl_nil,
      Finset.sum_range_succ, ih]
    by_cases hnz : nz n
    · rw [if_pos hnz, if_pos hnz, add_assoc]
    · rw [if_neg hnz, if_neg hnz, add_zero]

theorem valueDispatch_eq (B : ℕ) (st : FEState) (d : BlockSFD) (q : ℕ) :
    valueDispatch B st d q = blockValueSpec B st d q := by
  unfold valueDispatch blockValueSpec
  by_cases h2 : d.single_nonzero_component = -2
  · simp [h2]
  · by_cases h1 : d.single_nonzero_component = -1
    · rw [if_neg h2, if_neg h2, if_neg (not_not_intro h1), if_pos h1]
      funext k
      rw [foldSet_pointwise (fun c => d.is_nonzero_shape_function_component c)
        (fun c => st.shape_values (d.row_index c) q) B ten1Zero k]
      rfl
    · rw [if_neg h2, if_neg h2, if_pos h1, if_neg h1]
      funext k
      simp [ten1Set, ten1Zero]

/-! Claim theorems. -/

/-- C1: for the vector component view, `value(i, q)` follows the tri-state
dispatch for every shape function `i` and quadrature point `q`: the zero
vector when `single_nonzero_component` is the "none" sentinel `-2`; when it
names a single row, the vector whose `single_nonzero_component_index` entry
is that row's cached value at `q` with all other entries zero; otherwise the
elementwise assembly over the `dim`-sized `is_nonzero` array — in particular
a non-primitive shape function with several nonzero components gets the
loop-assembled value, never the single-row fast path. -/
theorem c1_vector_value_tristate (dim : ℕ) (st : FEState) (sfd : ℕ → BlockSFD)
    (i q : ℕ) (hi : i < st.n_dofs_per_cell) (hv : st.update_values = true) :
    Vector_value dim st sfd i q = Res.ok (blockValueSpec dim st (sfd i) q) := by
  simp [Vector_value, hi, hv, valueDispatch_eq]

/-- Witness for C1 at a concrete state: shape function 1 is in the
multiple-nonzero-components state with components 0 and 1 nonzero. -/
theorem c1_vector_value_tristate_witness :
    1 < (mkExState true true true true).n_dofs_per_cell ∧
    (mkExState true true true true).update_values = true ∧
    Vector_value 2 (mkExState true true true true) exSFD 1 0 =
      Res.ok (blockValueSpec 2 (mkExState true true true true) (exSFD 1) 0) :=
  ⟨by decide, rfl,
   c1_vector_value_tristate 2 (mkExState true true true true) exSFD 1 0 (by decide) rfl⟩

/-- C9: for an element in which every shape function is primitive, with
`update_values` requested and a cell loaded, `shape_value(i, j)` returns
exactly the raw basis-cache entry `shape_values(i, j)`, with no row-table
indirection. -/
theorem c9_primitive_shape_value_raw_row (st : FEState) (i j : ℕ)
    (hi : i < st.n_dofs_per_cell) (hv : st.update_values = true)
    (hp : st.fe_is_primitive = true) (hpi : st.is_primitive i = true)
    (hc : st.present_cell_initialized = true) :
    shape_value st i j = Res.ok (st.shape_values i j) := by
  simp [shape_value, hi, hv, hp, hpi, hc]

/-- Witness for C9 at the spec's concrete scenario indices: `shape_value(2,1)`
equals the raw cached value at row 2, point 1. -/
theorem c9_primitive_shape_value_raw_row_witness :
    2 < (mkExState true true true true).n_dofs_per_cell ∧
    (mkExState true true true true).fe_is_primitive = true ∧
    shape_value (mkExState true true true true) 2 1 =
      Res.ok ((mkExState true true true true).shape_values 2 1) :=
  ⟨by decide, rfl,
   c9_primitive_shape_value_raw_row (mkExState true true true true) 2 1
     (by decide) rfl rfl rfl rfl⟩

/-- C10: for every shape function with at least one structurally nonzero
component (descriptor state `≠ -2`), the vector view's `curl` in dimension 1
fails with the assertion "Computing the curl in 1d is not a useful
operation". -/
theorem c10_curl_1d_asserts (st : FEState) (sfd : ℕ → BlockSFD) (i q : ℕ)
    (hi : i < st.n_dofs_per_cell) (hg : st.update_gradients = true)
    (hnz : (sfd i).single_nonzero_component ≠ -2) :
    Vector_curl 1 st sfd i q =
      Res.error (Err.message "Computing the curl in 1d is not a useful operation") := by
  simp [Vector_curl, hi, hg, hnz]

/-- Witness for C10: shape function 0 has a single nonzero component, and its
1d curl hits the assertion. -/
theorem c10_curl_1d_asserts_witness :
    (exSFD 0).single_nonzero_component ≠ -2 ∧
    Vector_curl 1 (mkExState true true true true) exSFD 0 0 =
      Res.error (Err.message "Computing the curl in 1d is not a useful operation") :=
  ⟨by decide,
   c10_curl_1d_asserts (mkExState true true true true) exSFD 0 0 (by decide) rfl
     (by decide)⟩

/-- C3: query operations fail with the `ExcAccessToUninitializedField`
precondition violation — rather than silently returning zero — whenever the
update flag owning the requested quantity is absent: the whole-element
`shape_hessian` and the scalar view's `hessian` without `update_hessians`,
`shape_value` and the scalar view's `value` without `update_values`, and the
vector view's `gradient` without `update_gradients`. -/
theorem c3_missing_flag_queries_fail (st : FEState) (sfdS : ℕ → ScalarSFD)
    (sfdV : ℕ → BlockSFD) (dim i j q : ℕ)
    (hi : i < st.n_dofs_per_cell)
    (hh : st.update_hessians = false) (hv : st.update_values = false)
    (hg : st.update_gradients = false) :
    shape_hessian st i j = Res.error (Err.accessToUninitializedField "update_hessians")
    ∧ Scalar_hessian st sfdS i q =
        Res.error (Err.accessToUninitializedField "update_hessians")
    ∧ shape_value st i j = Res.error (Err.accessToUninitializedField "update_values")
    ∧ Scalar_value st sfdS i q =
        Res.error (Err.accessToUninitializedField "update_values")
    ∧ Vector_gradient dim st sfdV i q =
        Res.error (Err.accessToUninitializedField "update_gradients") := by
  refine ⟨?_, ?_, ?_, ?_, ?_⟩ <;>
    simp [shape_hessian, Scalar_hessian, shape_value, Scalar_value,
      Vector_gradient, hi, hh, hv, hg]

/-- Witness for C3 at a concrete state in which no update flag was
requested. -/
theorem c3_missing_flag_queries_fail_witness :
    (mkExState false false false true).update_hessians = false ∧
    shape_hessian (mkExState false false false true) 0 0 =
      Res.error (Err.accessToUninitializedField "update_hessians") ∧
    Scalar_hessian (mkExState false false false true) exScalarSFD 0 0 =
      Res.error (Err.accessToUninitializedField "update_hessians") ∧
    Scalar_value (mkExState false false false true) exScalarSFD 0 0 =
      Res.error (Err.accessToUninitializedField "update_values") :=
  ⟨rfl,
   (c3_missing_flag_queries_fail (mkExState false false false true) exScalarSFD exSFD
      2 0 0 0 (by decide) rfl rfl rfl).1,
   (c3_missing_flag_queries_fail (mkExState false false false true) exScalarSFD exSFD
      2 0 0 0 (by decide) rfl rfl rfl).2.1,
   (c3_missing_flag_queries_fail (mkExState false false false true) exScalarSFD exSFD
      2 0 0 0 (by decide) rfl rfl rfl).2.2.2.1⟩

/-- C6: for the vector component view, in every dispatch state (none, single
nonzero component, multiple nonzero components), `divergence(i, q)` equals
the trace of `gradient(i, q)` — including agreement of the assertion
outcomes. -/
theorem c6_vector_divergence_eq_trace_gradient (dim : ℕ) (st : FEState)
    (sfd : ℕ → BlockSFD) (i q : ℕ)
    (hwf : (sfd i).single_nonzero_component ≠ -1 →
           (sfd i).single_nonzero_component ≠ -2 →
           (sfd i).single_nonzero_component_index < dim) :
    Vector_divergence dim st sfd i q =
      Res.map (traceT dim) (Vector_gradient dim st sfd i q) := by
  by_cases hi : i < st.n_dofs_per_cell
  · by_cases hg : st.update_gradients
    · by_cases h2 : (sfd i).single_nonzero_component = -2
      · simp [Vector_divergence, Vector_gradient, hi, hg, h2, Res.map, traceT,
          ten2Zero]
      · by_cases h1 : (sfd i).single_nonzero_component = -1
        · simp only [Vector_divergence, Vector_gradient, Res.map]
          simp only [if_pos hi, if_pos hg, if_neg h2, if_neg (not_not_intro h1),
            Res.map]
          refine congrArg Res.ok ?_
          rw [foldSum_eq (fun c => (sfd i).is_nonzero_shape_function_component c)
            (fun c => st.shape_gradients ((sfd i).row_index c) q c) dim 0, zero_add]
          unfold traceT gradientLoop
          refine Finset.sum_congr rfl ?_
          intro d hd
          rw [foldSetRow_pointwise (fun c => (sfd i).is_nonzero_shape_function_component c)
            (fun c => st.shape_gradients ((sfd i).row_index c) q) dim ten2Zero d d]
          have hdlt : d < dim := Finset.mem_range.mp hd
          by_cases hz : (sfd i).is_nonzero_shape_function_component d
          · simp [hz, hdlt]
          · simp [hz, ten2Zero]
        · have hidx : (sfd i).single_nonzero_component_index < dim := hwf h1 h2
          simp only [Vector_divergence, Vector_gradient, Res.map]
          simp only [if_pos hi, if_pos hg, if_neg h2, if_pos h1, Res.map]
          refine congrArg Res.ok ?_
          unfold traceT
          have hrow : ∀ d : ℕ, (ten2SetRow ten2Zero (sfd i).single_nonzero_component_index
              (st.shape_gradients (sfd i).single_nonzero_component.toNat q)) d d
              = if d = (sfd i).single_nonzero_component_index then
                  st.shape_gradients (sfd i).single_nonzero_component.toNat q d
                else 0 := by
            intro d
            unfold ten2SetRow ten2Zero
            by_cases hd : d = (sfd i).single_nonzero_component_index <;> simp [hd]
          rw [Finset.sum_congr rfl (fun d _ => hrow d), Finset.sum_ite_eq'
            (Finset.range dim) (sfd i).single_nonzero_component_index
            (st.shape_gradients (sfd i).single_nonzero_component.toNat q)]
          rw [if_pos (Finset.mem_range.mpr hidx)]
    · simp [Vector_divergence, Vector_gradient, hi, hg, Res.map]
  · simp [Vector_divergence, Vector_gradient, hi, Res.map]

/-- Witness for C6 at a concrete state, shape function 0 (single-component
fast path), dimension 2. -/
theorem c6_vector_divergence_eq_trace_gradient_witness :
    ((exSFD 0).single_nonzero_component ≠ -1 → (exSFD 0).single_nonzero_component ≠ -2 →
      (exSFD 0).single_nonzero_component_index < 2) ∧
    Vector_divergence 2 (mkExState true true true true) exSFD 0 0 =
      Res.map (traceT 2) (Vector_gradient 2 (mkExState true true true true) exSFD 0 0) :=
  ⟨by decide,
   c6_vector_divergence_eq_trace_gradient 2 (mkExState true true true true) exSFD 0 0
     (by decide)⟩

/-- C7: for the vector component view, `curl` equals the antisymmetric part
of `gradient`: in 2d the single pseudoscalar component is
`G 1 0 - G 0 1`, in 3d the standard 3-vector curl of the 3×3 gradient — in
the none state, the single-nonzero-component fast path, and the
multiple-components loop path alike. -/
theorem c7_vector_curl_antisymmetric (dim : ℕ) (st : FEState) (sfd : ℕ → BlockSFD)
    (i q : ℕ) (hdim : dim = 2 ∨ dim = 3)
    (hwf : (sfd i).single_nonzero_component ≠ -1 →
           (sfd i).single_nonzero_component ≠ -2 →
           (sfd i).single_nonzero_component_index < dim) :
    Vector_curl dim st sfd i q =
      Res.map (curlOfGradient dim) (Vector_gradient dim st sfd i q) := by
  by_cases hi : i < st.n_dofs_per_cell
  case neg => simp [Vector_curl, Vector_gradient, hi, Res.map]
  by_cases hg : st.update_gradients
  case neg => simp [Vector_curl, Vector_gradient, hi, hg, Res.map]
  by_cases h2 : (sfd i).single_nonzero_component = -2
  · rcases hdim with hD | hD <;> subst hD <;>
      · simp only [Vector_curl, Vector_gradient, Res.map, if_pos hi, if_pos hg,
          if_pos h2]
        refine congrArg Res.ok ?_
        funext k
        simp [curlOfGradient, ten1Zero, ten2Zero]
  · by_cases h1 : (sfd i).single_nonzero_component = -1
    · -- multiple-components loop path
      rcases hdim with hD | hD <;> subst hD
      · simp only [Vector_curl, Vector_gradient, Res.map, if_pos hi, if_pos hg,
          if_neg h2, if_neg (not_not_intro h1),
          if_neg (show ¬(2 : ℕ) = 1 by decide), if_pos (rfl : (2 : ℕ) = 2)]
        refine congrArg Res.ok ?_
        funext k
        by_cases hk : k = 0
        · subst hk
          by_cases hz0 : (sfd i).is_nonzero_shape_function_component 0 <;>
            by_cases hz1 : (sfd i).is_nonzero_shape_function_component 1 <;>
              simp [hz0, hz1, ten1Set, ten1Zero, ten2Zero, curlOfGradient,
                gradientLoop, foldSetRow_pointwise] <;> ring
        · simp [ten1Set, hk, curlOfGradient, ten1Zero]
      · simp only [Vector_curl, Vector_gradient, Res.map, if_pos hi, if_pos hg,
          if_neg h2, if_neg (not_not_intro h1),
          if_neg (show ¬(3 : ℕ) = 1 by decide),
          if_neg (show ¬(3 : ℕ) = 2 by decide), if_pos (rfl : (3 : ℕ) = 3)]
        refine congrArg Res.ok ?_
        funext k
        have hk : k = 0 ∨ k = 1 ∨ k = 2 ∨ 3 ≤ k := by omega
        rcases hk with hk | hk | hk | hk
        · subst hk
          by_cases hz0 : (sfd i).is_nonzero_shape_function_component 0 <;>
            by_cases hz1 : (sfd i).is_nonzero_shape_function_component 1 <;>
              by_cases hz2 : (sfd i).is_nonzero_shape_function_component 2 <;>
                simp [hz0, hz1, hz2, ten1Add, ten1Zero, ten2Zero, curlOfGradient,
                  gradientLoop, foldSetRow_pointwise] <;> ring
        · subst hk
          by_cases hz0 : (sfd i).is_nonzero_shape_function_component 0 <;>
            by_cases hz1 : (sfd i).is_nonzero_shape_function_component 1 <;>
              by_cases hz2 : (sfd i).is_nonzero_shape_function_component 2 <;>
                simp [hz0, hz1, hz2, ten1Add, ten1Zero, ten2Zero, curlOfGradient,
                  gradientLoop, foldSetRow_pointwise] <;> ring
        · subst hk
          by_cases hz0 : (sfd i).is_nonzero_shape_function_component 0 <;>
            by_cases hz1 : (sfd i).is_nonzero_shape_function_component 1 <;>
              by_cases hz2 : (sfd i).is_nonzero_shape_function_component 2 <;>
                simp [hz0, hz1, hz2, ten1Add, ten1Zero, ten2Zero, curlOfGradient,
                  gradientLoop, foldSetRow_pointwise] <;> ring
        · have hk0 : ¬k = 0 := by omega
          have hk1 : ¬k = 1 := by omega
          have hk2 : ¬k = 2 := by omega
          by_cases hz0 : (sfd i).is_nonzero_shape_function_component 0 <;>
            by_cases hz1 : (sfd i).is_nonzero_shape_function_component 1 <;>
              by_cases hz2 : (sfd i).is_nonzero_shape_function_component 2 <;>
                simp [hz0, hz1, hz2, ten1Add, ten1Zero, curlOfGradient, hk0, hk1,
                  hk2]
    · -- single-nonzero-component fast path
      have hidx : (sfd i).single_nonzero_component_index < dim := hwf h1 h2
      rcases hdim with hD | hD <;> subst hD
      · have hc : (sfd i).single_nonzero_component_index = 0 ∨
            (sfd i).single_nonzero_component_index = 1 := by omega
        simp only [Vector_curl, Vector_gradient, Res.map, if_pos hi, if_pos hg,
          if_neg h2, if_pos h1,
          if_neg (show ¬(2 : ℕ) = 1 by decide), if_pos (rfl : (2 : ℕ) = 2)]
        refine congrArg Res.ok ?_
        funext k
        rcases hc with hc | hc <;>
          by_cases hk : k = 0 <;>
            simp [hc, hk, ten1Set, ten1Zero, ten2SetRow, ten2Zero,
              curlOfGradient] <;> ring
      · have hc : (sfd i).single_nonzero_component_index = 0 ∨
            (sfd i).single_nonzero_component_index = 1 ∨
            (sfd i).single_nonzero_component_index = 2 := by omega
        simp only [Vector_curl, Vector_gradient, Res.map, if_pos hi, if_pos hg,
          if_neg h2, if_pos h1,
          if_neg (show ¬(3 : ℕ) = 1 by decide),
          if_neg (show ¬(3 : ℕ) = 2 by decide), if_pos (rfl : (3 : ℕ) = 3)]
        refine congrArg Res.ok ?_
        funext k
        have hk : k = 0 ∨ k = 1 ∨ k = 2 ∨ 3 ≤ k := by omega
        rcases hc with hc | hc | hc <;>
          rcases hk with hk | hk | hk | hk <;>
            first
            | (subst hk
               simp [hc, mk3, ten1Zero, ten2SetRow, ten2Zero, curlOfGradient] <;>
                 ring)
            | (simp [hc, mk3, ten1Zero, ten2SetRow, ten2Zero, curlOfGradient,
                (by omega : ¬k = 0), (by omega : ¬k = 1), (by omega : ¬k = 2)])

/-- Witness for C7 at a concrete state, dimension 3, shape function 1
(multiple-components loop path). -/
theorem c7_vector_curl_antisymmetric_witness :
    ((2 : ℕ) = 2 ∨ (2 : ℕ) = 3) ∧
    Vector_curl 2 (mkExState true true true true) exSFD 1 0 =
      Res.map (curlOfGradient 2)
        (Vector_gradient 2 (mkExState true true true true) exSFD 1 0) :=
  ⟨Or.inl rfl,
   c7_vector_curl_antisymmetric 2 (mkExState true true true true) exSFD 1 0
     (Or.inl rfl) (by decide)⟩

theorem singleRow_as_set (n : ℕ) (t : Ten1) :
    ten2SetRow ten2Zero n t = singleRowT n t := by
  funext a b
  simp [ten2SetRow, ten2Zero, singleRowT]

theorem ssr_eq (dim n : ℕ) (t : Ten1) (hdim : dim = 1 ∨ dim = 2 ∨ dim = 3)
    (hn : n < dim) (ht0 : ∀ k, dim ≤ k → t k = 0) :
    symmetrize_single_row dim n t = symmetrizeT (singleRowT n t) := by
  rcases hdim with rfl | rfl | rfl
  · have hn0 : n = 0 := by omega
    subst hn0
    funext x y
    simp only [symmetrize_single_row, symmetrizeT, singleRowT]
    by_cases hx : x = 0 <;> by_cases hy : y = 0
    · subst hx; subst hy; simp <;> ring
    · simp [hx, hy, ht0 y (by omega)]
    · simp [hx, hy, ht0 x (by omega)]
    · simp [hx, hy]
  · have hn01 : n = 0 ∨ n = 1 := by omega
    rcases hn01 with rfl | rfl
    · funext x y
      simp only [symmetrize_single_row, symmetrizeT, singleRowT]
      by_cases hx : x = 0 <;> by_cases hy : y = 0
      · subst hx; subst hy; simp <;> ring
      · subst hx
        by_cases hy1 : y = 1
        · subst hy1; simp <;> ring
        · simp [hy, hy1, ht0 y (by omega)]
      · subst hy
        by_cases hx1 : x = 1
        · subst hx1; simp <;> ring
        · simp [hx, hx1, ht0 x (by omega)]
      · simp [hx, hy]
    · funext x y
      simp only [symmetrize_single_row, symmetrizeT, singleRowT]
      by_cases hx : x = 1 <;> by_cases hy : y = 1
      · subst hx; subst hy; simp <;> ring
      · subst hx
        by_cases hy0 : y = 0
        · subst hy0; simp <;> ring
        · simp [hy, hy0, ht0 y (by omega)]
      · subst hy
        by_cases hx0 : x = 0
        · subst hx0; simp <;> ring
        · simp [hx, hx0, ht0 x (by omega)]
      · simp [hx, hy]
  · have hn012 : n = 0 ∨ n = 1 ∨ n = 2 := by omega
    rcases hn012 with rfl | rfl | rfl
    · funext x y
      simp only [symmetrize_single_row, symmetrizeT, singleRowT]
      by_cases hx : x = 0 <;> by_cases hy : y = 0
      · subst hx; subst hy; simp <;> ring
      · subst hx
        by_cases hy1 : y = 1
        · subst hy1; simp <;> ring
        · by_cases hy2 : y = 2
          · subst hy2; simp <;> ring
          · simp [hy, hy1, hy2, ht0 y (by omega)]
      · subst hy
        by_cases hx1 : x = 1
        · subst hx1; simp <;> ring
        · by_cases hx2 : x = 2
          · subst hx2; simp <;> ring
          · simp [hx, hx1, hx2, ht0 x (by omega)]
      · simp [hx, hy]
    · funext x y
      simp only [symmetrize_single_row, symmetrizeT, singleRowT]
      by_cases hx : x = 1 <;> by_cases hy : y = 1
      · subst hx; subst hy; simp <;> ring
      · subst hx
        by_cases hy0 : y = 0
        · subst hy0; simp <;> ring
        · by_cases hy2 : y = 2
          · subst hy2; simp <;> ring
          · simp [hy, hy0, hy2, ht0 y (by omega)]
      · subst hy
        by_cases hx0 : x = 0
        · subst hx0; simp <;> ring
        · by_cases hx2 : x = 2
          · subst hx2; simp <;> ring
          · simp [hx, hx0, hx2, ht0 x (by omega)]
      · simp [hx, hy]
    · funext x y
      simp only [symmetrize_single_row, symmetrizeT, singleRowT]
      by_cases hx : x = 2 <;> by_cases hy : y = 2
      · subst hx; subst hy; simp <;> ring
      · subst hx
        by_cases hy0 : y = 0
        · subst hy0; simp <;> ring
        · by_cases hy1 : y = 1
          · subst hy1; simp <;> ring
          · simp [hy, hy0, hy1, ht0 y (by omega)]
      · subst hy
        by_cases hx0 : x = 0
        · subst hx0; simp <;> ring
        · by_cases hx1 : x = 1
          · subst hx1; simp <;> ring
          · simp [hx, hx0, hx1, ht0 x (by omega)]
      · simp [hx, hy]

/-- C8: for the vector component view, `symmetric_gradient(i, q)` equals the
symmetrization `(G + Gᵀ)/2` of `gradient(i, q)` in every dispatch state; in
particular the closed-form fast path `symmetrize_single_row(n, t)` equals
`symmetrize` applied to the tensor whose `n`-th row is `t` and whose other
rows are zero, for every `n < dim` and every rank-1 tensor `t` (vanishing,
like every `Tensor<1,dim>`, beyond its `dim` entries). -/
theorem c8_symmetric_gradient_eq_symmetrize (dim : ℕ) (st : FEState)
    (sfd : ℕ → BlockSFD) (i q n : ℕ) (t : Ten1)
    (hdim : dim = 1 ∨ dim = 2 ∨ dim = 3)
    (hwf : (sfd i).single_nonzero_component ≠ -1 →
           (sfd i).single_nonzero_component ≠ -2 →
           (sfd i).single_nonzero_component_index < dim)
    (hg0 : ∀ r p k, dim ≤ k → st.shape_gradients r p k = 0)
    (hn : n < dim) (ht0 : ∀ k, dim ≤ k → t k = 0) :
    Vector_symmetric_gradient dim st sfd i q =
      Res.map symmetrizeT (Vector_gradient dim st sfd i q)
    ∧ symmetrize_single_row dim n t = symmetrizeT (singleRowT n t) := by
  refine ⟨?_, ssr_eq dim n t hdim hn ht0⟩
  by_cases hi : i < st.n_dofs_per_cell
  case neg => simp [Vector_symmetric_gradient, Vector_gradient, hi, Res.map]
  by_cases hgr : st.update_gradients
  case neg => simp [Vector_symmetric_gradient, Vector_gradient, hi, hgr, Res.map]
  by_cases h2 : (sfd i).single_nonzero_component = -2
  · simp only [Vector_symmetric_gradient, Vector_gradient, Res.map, if_pos hi,
      if_pos hgr, if_pos h2]
    refine congrArg Res.ok ?_
    funext x y
    simp [symmetrizeT, ten2Zero]
  · by_cases h1 : (sfd i).single_nonzero_component = -1
    · simp only [Vector_symmetric_gradient, Vector_gradient, Res.map, if_pos hi,
        if_pos hgr, if_neg h2, if_neg (not_not_intro h1)]
    · have hidx : (sfd i).single_nonzero_component_index < dim := hwf h1 h2
      simp only [Vector_symmetric_gradient, Vector_gradient, Res.map, if_pos hi,
        if_pos hgr, if_neg h2, if_pos h1]
      refine congrArg Res.ok ?_
      rw [singleRow_as_set]
      exact ssr_eq dim (sfd i).single_nonzero_component_index
        (st.shape_gradients (sfd i).single_nonzero_component.toNat q) hdim hidx
        (fun k hk => hg0 _ _ k hk)

/-- Witness for C8 at a concrete state, dimension 3, shape function 0
(single-row fast path), with `n = 1` and a concrete row `t`. -/
theorem c8_symmetric_gradient_eq_symmetrize_witness :
    1 < 3 ∧
    Vector_symmetric_gradient 3 (mkExState true true true true) exSFD 0 0 =
      Res.map symmetrizeT
        (Vector_gradient 3 (mkExState true true true true) exSFD 0 0) ∧
    symmetrize_single_row 3 1 (fun k => if k < 3 then (k : ℚ) + 1 else 0) =
      symmetrizeT (singleRowT 1 (fun k => if k < 3 then (k : ℚ) + 1 else 0)) := by
  refine ⟨by decide, ?_⟩
  have h := c8_symmetric_gradient_eq_symmetrize 3 (mkExState true true true true)
    exSFD 0 0 1 (fun k => if k < 3 then (k : ℚ) + 1 else 0)
    (Or.inr (Or.inr rfl)) (by decide)
    (by
      intro r p k hk
      simp only [mkExState]
      rw [if_neg (by omega)])
    (by decide)
    (by
      intro k hk
      have hlt : ¬k < 3 := by omega
      simp [hlt])
  exact ⟨h.1, h.2⟩

/-- Counterexample to C2 as stated: for a shape function in the
multiple-nonzero-components state (`single_nonzero_component = -1`), the
symmetric-tensor and general-tensor views' `divergence` and the general
tensor view's `gradient` do not return a loop-assembled value — they fail
with the `ExcNotImplemented` assertion. -/
theorem c2_multiple_components_not_implemented_cex :
    (exSFD 1).single_nonzero_component = -1 ∧
    SymmetricTensor_divergence exUnroll (mkExState true true true true) exSFD 1 0 =
      Res.error Err.notImplemented ∧
    Tensor_divergence exUnroll (mkExState true true true true) exSFD 1 0 =
      Res.error Err.notImplemented ∧
    Tensor_gradient exUnroll (mkExState true true true true) exSFD 1 0 =
      Res.error Err.notImplemented :=
  ⟨rfl, rfl, rfl, rfl⟩

/-- C2 (amended): the symmetric-tensor and general-tensor views'
`divergence`, and the general tensor view's `gradient`, follow the
none/single/multiple dispatch: the zero value in the "none" state and the
single-unrolled-component closed form in the "single" state — but in the
multiple-nonzero-components state (`single_nonzero_component = -1`) they
fail with the `ExcNotImplemented` assertion instead of assembling a value
in a loop. -/
theorem c2_tensor_view_divergence_dispatch (unroll : ℕ → ℕ × ℕ) (st : FEState)
    (sfd : ℕ → BlockSFD) (i q : ℕ)
    (hi : i < st.n_dofs_per_cell) (hg : st.update_gradients = true) :
    SymmetricTensor_divergence unroll st sfd i q = symTensorDivSpec unroll st (sfd i) q
    ∧ Tensor_divergence unroll st sfd i q = tensorDivSpec unroll st (sfd i) q
    ∧ Tensor_gradient unroll st sfd i q = tensorGradSpec unroll st (sfd i) q := by
  refine ⟨?_, ?_, ?_⟩
  · by_cases h2 : (sfd i).single_nonzero_component = -2
    · simp [SymmetricTensor_divergence, symTensorDivSpec, hi, hg, h2]
    · by_cases h1 : (sfd i).single_nonzero_component = -1
      · simp only [SymmetricTensor_divergence, symTensorDivSpec, if_pos hi,
          if_pos hg, if_neg h2, if_neg (not_not_intro h1), if_pos h1]
      · simp only [SymmetricTensor_divergence, symTensorDivSpec, if_pos hi,
          if_pos hg, if_neg h2, if_neg h1, if_pos h1]
        by_cases hij : (unroll (sfd i).single_nonzero_component_index).1 =
            (unroll (sfd i).single_nonzero_component_index).2
        · rw [if_neg (not_not_intro hij)]
          refine congrArg Res.ok ?_
          funext k
          by_cases hki : k = (unroll (sfd i).single_nonzero_component_index).1
          · subst hki
            simp [ten1Set, hij]
          · have hkj : ¬k = (unroll (sfd i).single_nonzero_component_index).2 := by
              rw [← hij]; exact hki
            simp [ten1Set, ten1Zero, hki, hkj]
        · rw [if_pos hij]
          refine congrArg Res.ok ?_
          funext k
          by_cases hki : k = (unroll (sfd i).single_nonzero_component_index).1
          · subst hki
            simp [ten1Set, ten1Zero, hij]
          · by_cases hkj : k = (unroll (sfd i).single_nonzero_component_index).2
            · subst hkj
              simp [ten1Set, ten1Zero, hki]
            · simp [ten1Set, ten1Zero, hki, hkj]
  · by_cases h2 : (sfd i).single_nonzero_component = -2
    · simp [Tensor_divergence, tensorDivSpec, hi, hg, h2]
    · by_cases h1 : (sfd i).single_nonzero_component = -1
      · simp only [Tensor_divergence, tensorDivSpec, if_pos hi, if_pos hg,
          if_neg h2, if_neg (not_not_intro h1), if_pos h1]
      · simp only [Tensor_divergence, tensorDivSpec, if_pos hi, if_pos hg,
          if_neg h2, if_neg h1, if_pos h1]
        refine congrArg Res.ok ?_
        funext k
        simp [ten1Set, ten1Zero]
  · by_cases h2 : (sfd i).single_nonzero_component = -2
    · simp [Tensor_gradient, tensorGradSpec, hi, hg, h2]
    · by_cases h1 : (sfd i).single_nonzero_component = -1
      · simp only [Tensor_gradient, tensorGradSpec, if_pos hi, if_pos hg,
          if_neg h2, if_neg (not_not_intro h1), if_pos h1]
      · simp only [Tensor_gradient, tensorGradSpec, if_pos hi, if_pos hg,
          if_neg h2, if_neg h1, if_pos h1]
        refine congrArg Res.ok ?_
        funext x y z
        simp [ten3Set, ten3Zero]

/-- Witness for the amended C2 at a concrete state, applied at the
multiple-components shape function 1. -/
theorem c2_tensor_view_divergence_dispatch_witness :
    1 < (mkExState true true true true).n_dofs_per_cell ∧
    SymmetricTensor_divergence exUnroll (mkExState true true true true) exSFD 1 0 =
      symTensorDivSpec exUnroll (mkExState true true true true) (exSFD 1) 0 ∧
    Tensor_divergence exUnroll (mkExState true true true true) exSFD 1 0 =
      tensorDivSpec exUnroll (mkExState true true true true) (exSFD 1) 0 :=
  ⟨by decide,
   (c2_tensor_view_divergence_dispatch exUnroll (mkExState true true true true)
      exSFD 1 0 (by decide) rfl).1,
   (c2_tensor_view_divergence_dispatch exUnroll (mkExState true true true true)
      exSFD 1 0 (by decide) rfl).2.1⟩

/-- Counterexample to C4 as stated: with no cell loaded
(`present_cell_initialized = false`) but `update_values` requested, the
scalar view's `value` succeeds and returns the cached entry, while the
whole-element `shape_value` fails with `ExcNotReinited` — so the view does
not fail "exactly as the whole-element accessors" do. -/
theorem c4_view_value_without_reinit_cex :
    (mkExState true true true false).present_cell_initialized = false ∧
    Scalar_value (mkExState true true true false) exScalarSFD 0 0 = Res.ok 1 ∧
    shape_value (mkExState true true true false) 0 0 = Res.error Err.notReinited := by
  refine ⟨rfl, ?_, rfl⟩
  simp [Scalar_value, mkExState, exScalarSFD]

/-- C4 (amended): the component-view accessors taking (shape-function index,
quadrature-point index) check only the index range and the owning update
flag; they do not check that a cell has been loaded — their result is
independent of the present-cell marker — unlike the whole-element accessors
such as `shape_value`, which fail with `ExcNotReinited` when no cell is
loaded. -/
theorem c4_views_skip_present_cell_check (st : FEState) (sfdS : ℕ → ScalarSFD)
    (sfdV : ℕ → BlockSFD) (dim i q j : ℕ) (b : Bool)
    (hi : i < st.n_dofs_per_cell) (hv : st.update_values = true)
    (hg : st.update_gradients = true) (hp : st.is_primitive i = true)
    (hnc : st.present_cell_initialized = false) :
    Scalar_value st sfdS i q =
      Scalar_value ({ st with present_cell_initialized := b } : FEState) sfdS i q
    ∧ Vector_value dim st sfdV i q =
      Vector_value dim ({ st with present_cell_initialized := b } : FEState) sfdV i q
    ∧ Vector_gradient dim st sfdV i q =
      Vector_gradient dim ({ st with present_cell_initialized := b } : FEState) sfdV i q
    ∧ shape_value st i j = Res.error Err.notReinited := by
  refine ⟨?_, ?_, ?_, ?_⟩
  · simp [Scalar_value, hi, hv]
  · simp [Vector_value, valueDispatch, hi, hv]
  · simp [Vector_gradient, gradientLoop, hi, hg]
  · simp [shape_value, hi, hv, hp, hnc]

/-- Witness for the amended C4 at a concrete state with no cell loaded. -/
theorem c4_views_skip_present_cell_check_witness :
    (mkExState true true true false).present_cell_initialized = false ∧
    Scalar_value (mkExState true true true false) exScalarSFD 0 0 =
      Scalar_value ({ mkExState true true true false with
        present_cell_initialized := true } : FEState) exScalarSFD 0 0 ∧
    shape_value (mkExState true true true false) 0 0 = Res.error Err.notReinited :=
  ⟨rfl,
   (c4_views_skip_present_cell_check (mkExState true true true false) exScalarSFD
      exSFD 2 0 0 0 true (by decide) rfl rfl rfl rfl).1,
   (c4_views_skip_present_cell_check (mkExState true true true false) exScalarSFD
      exSFD 2 0 0 0 true (by decide) rfl rfl rfl rfl).2.2.2⟩

theorem block_refine (st : FEState) (i q first B : ℕ)
    (hi : i < st.n_dofs_per_cell) (hv : st.update_values = true)
    (hpc : st.present_cell_initialized = true)
    (hB : first + B ≤ st.n_components) :
    ∀ d, d < B → shape_value_component st i q (first + d)
      = Res.ok (valueDispatch B st (mkBlockSFD st i first B) q d) := by
  intro d hd
  have hcomp : first + d < st.n_components := by omega
  rw [valueDispatch_eq]
  simp only [shape_value_component, if_pos hi, if_pos hv, if_pos hcomp, if_pos hpc]
  refine congrArg Res.ok ?_
  simp only [mkBlockSFD]
  by_cases h0 :
      ((List.range B).filter (fun c => st.nonzero_components i (first + c))).length = 0
  · rw [if_pos h0]
    have hnil : (List.range B).filter (fun c => st.nonzero_components i (first + c))
        = [] := List.length_eq_zero.mp h0
    have hz : st.nonzero_components i (first + d) = false := by
      by_contra hcon
      have hmem : d ∈ (List.range B).filter
          (fun c => st.nonzero_components i (first + c)) :=
        List.mem_filter.mpr ⟨List.mem_range.mpr hd, by simpa using hcon⟩
      rw [hnil] at hmem
      exact absurd hmem (List.not_mem_nil d)
    simp [blockValueSpec, shape_value_component_payload, hz, ten1Zero]
  · rw [if_neg h0]
    by_cases h1 : ((List.range B).filter
        (fun c => st.nonzero_components i (first + c))).length = 1
    · rw [if_pos h1]
      obtain ⟨c0, hc0⟩ := List.length_eq_one.mp h1
      have hhead : ((List.range B).filter
          (fun c => st.nonzero_components i (first + c))).headD 0 = c0 := by
        rw [hc0]; rfl
      have hmemc0 : c0 ∈ (List.range B).filter
          (fun c => st.nonzero_components i (first + c)) := by
        rw [hc0]; exact List.mem_cons_self c0 []
      have hc0f := List.mem_filter.mp hmemc0
      have hc0nz : st.nonzero_components i (first + c0) = true := by
        simpa using hc0f.2
      have huniq : ∀ x, x < B → st.nonzero_components i (first + x) = true → x = c0 := by
        intro x hxB hx
        have hxm : x ∈ (List.range B).filter
            (fun c => st.nonzero_components i (first + c)) :=
          List.mem_filter.mpr ⟨List.mem_range.mpr hxB, by simpa using hx⟩
        rw [hc0] at hxm
        simpa using hxm
      rw [hhead]
      have hne2 : ((st.shape_function_to_row_table
          (i * st.n_components + (first + c0)) : ℤ)) ≠ -2 := by omega
      have hne1 : ((st.shape_function_to_row_table
          (i * st.n_components + (first + c0)) : ℤ)) ≠ -1 := by omega
      simp only [blockValueSpec, if_neg hne2, if_neg hne1, Int.toNat_natCast]
      by_cases hd0 : d = c0
      · subst hd0
        simp [shape_value_component_payload, hc0nz]
      · have hz : st.nonzero_components i (first + d) = false := by
          by_contra hcon
          exact hd0 (huniq d hd (by simpa using hcon))
        simp [shape_value_component_payload, hz, hd0]
    · rw [if_neg h1]
      simp only [blockValueSpec, if_neg (by decide : ¬(-1 : ℤ) = -2), if_pos rfl]
      by_cases hz : st.nonzero_components i (first + d) = true
      · simp [shape_value_component_payload, hz, hd]
      · have hz' : st.nonzero_components i (first + d) = false := by
          simpa using hz
        simp [shape_value_component_payload, hz', hd]

/-- C5: every component view's `value(i,q)` refines the whole-element
per-component accessor: the scalar view's value equals
`shape_value_component(i, q, component)` outright; for the vector,
symmetric-tensor and general-tensor views (with descriptors built per the
spec from the element's structural metadata and the row table), the view
value's entry `d` inside the block equals
`shape_value_component(i, q, first_component + d)` for every `d` in the
block, and the embedding of the view value into the full component space is
the additive identity outside the block. -/
theorem c5_view_value_refines_component_accessor (dim : ℕ) (st : FEState)
    (i q compS firstV firstS firstT : ℕ)
    (hi : i < st.n_dofs_per_cell) (hv : st.update_values = true)
    (hpc : st.present_cell_initialized = true)
    (hS : compS < st.n_components)
    (hV : firstV + dim ≤ st.n_components)
    (hSym : firstS + symNIndep dim ≤ st.n_components)
    (hT : firstT + dim * dim ≤ st.n_components) :
    (Scalar_value st (fun j => mkScalarSFD st j compS) i q
       = shape_value_component st i q compS)
    ∧ (Vector_value dim st (fun j => mkBlockSFD st j firstV dim) i q
         = Res.ok (valueDispatch dim st (mkBlockSFD st i firstV dim) q)
       ∧ (∀ d, d < dim → shape_value_component st i q (firstV + d)
            = Res.ok (valueDispatch dim st (mkBlockSFD st i firstV dim) q d))
       ∧ (∀ c, c < firstV ∨ firstV + dim ≤ c →
            embedBlock firstV dim
              (valueDispatch dim st (mkBlockSFD st i firstV dim) q) c = 0))
    ∧ (SymmetricTensor_value (symNIndep dim) st
         (fun j => mkBlockSFD st j firstS (symNIndep dim)) i q
         = Res.ok (valueDispatch (symNIndep dim) st
             (mkBlockSFD st i firstS (symNIndep dim)) q)
       ∧ (∀ d, d < symNIndep dim → shape_value_component st i q (firstS + d)
            = Res.ok (valueDispatch (symNIndep dim) st
                (mkBlockSFD st i firstS (symNIndep dim)) q d))
       ∧ (∀ c, c < firstS ∨ firstS + symNIndep dim ≤ c →
            embedBlock firstS (symNIndep dim)
              (valueDispatch (symNIndep dim) st
                (mkBlockSFD st i firstS (symNIndep dim)) q) c = 0))
    ∧ (Tensor_value dim st (fun j => mkBlockSFD st j firstT (dim * dim)) i q
         = Res.ok (valueDispatch (dim * dim) st
             (mkBlockSFD st i firstT (dim * dim)) q)
       ∧ (∀ d, d < dim * dim → shape_value_component st i q (firstT + d)
            = Res.ok (valueDispatch (dim * dim) st
                (mkBlockSFD st i firstT (dim * dim)) q d))
       ∧ (∀ c, c < firstT ∨ firstT + dim * dim ≤ c →
            embedBlock firstT (dim * dim)
              (valueDispatch (dim * dim) st
                (mkBlockSFD st i firstT (dim * dim)) q) c = 0)) := by
  refine ⟨?_, ⟨?_, ?_, ?_⟩, ⟨?_, ?_, ?_⟩, ⟨?_, ?_, ?_⟩⟩
  · simp only [Scalar_value, shape_value_component, if_pos hi, if_pos hv,
      if_pos hS, if_pos hpc]
    refine congrArg Res.ok ?_
    simp only [mkScalarSFD, shape_value_component_payload]
    by_cases hz : st.nonzero_components i compS = true
    · simp [hz]
    · have hz' : st.nonzero_components i compS = false := by simpa using hz
      simp [hz']
  · simp [Vector_value, hi, hv]
  · exact block_refine st i q firstV dim hi hv hpc hV
  · intro c hc
    simp only [embedBlock]
    rw [if_neg (by omega)]
  · simp [SymmetricTensor_value, hi, hv]
  · exact block_refine st i q firstS (symNIndep dim) hi hv hpc hSym
  · intro c hc
    simp only [embedBlock]
    rw [if_neg (by omega)]
  · simp [Tensor_value, hi, hv]
  · exact block_refine st i q firstT (dim * dim) hi hv hpc hT
  · intro c hc
    simp only [embedBlock]
    rw [if_neg (by omega)]

/-- Witness for C5 at a concrete state, dimension 2, shape function 1, with
the scalar view at component 1, the vector view's block at components 1-2,
and the tensor views' blocks at components 0-2 and 0-3. -/
theorem c5_view_value_refines_component_accessor_witness :
    1 < (mkExState true true true true).n_dofs_per_cell ∧
    Scalar_value (mkExState true true true true)
        (fun j => mkScalarSFD (mkExState true true true true) j 1) 1 0
      = shape_value_component (mkExState true true true true) 1 0 1 ∧
    Vector_value 2 (mkExState true true true true)
        (fun j => mkBlockSFD (mkExState true true true true) j 1 2) 1 0
      = Res.ok (valueDispatch 2 (mkExState true true true true)
          (mkBlockSFD (mkExState true true true true) 1 1 2) 0) ∧
    shape_value_component (mkExState true true true true) 1 0 (1 + 1)
      = Res.ok (valueDispatch 2 (mkExState true true true true)
          (mkBlockSFD (mkExState true true true true) 1 1 2) 0 1) ∧
    embedBlock 1 2 (valueDispatch 2 (mkExState true true true true)
          (mkBlockSFD (mkExState true true true true) 1 1 2) 0) 5 = 0 := by
  have h := c5_view_value_refines_component_accessor 2
    (mkExState true true true true) 1 0 1 1 0 0 (by decide) rfl rfl (by decide)
    (by decide) (by decide) (by decide)
  exact ⟨by decide, h.1, h.2.1.1, h.2.1.2.1 1 (by decide),
    h.2.1.2.2 5 (Or.inr (by decide))⟩
